import Mathlib

/-!
Shallow embedding of the DirectX-based console render engine
(src/renderer/dx/DxRenderer.cpp) for verification of its dirty-region
accounting, paint/present state machine, glyph-run shaping decision and
cursor geometry.

Machine integers (LONG, SHORT, ULONG, size_t) are modelled as Int/Nat;
SHORT narrowing casts are modelled explicitly by wrapping (toShort).
The Win32 rectangle helpers (IsRectEmpty, UnionRect, IntersectRect,
OffsetRect, SubtractRect) that the source calls are embedded with their
documented Win32 semantics, including the normalisation of empty results
to the all-zero rectangle and the one-dimensional-span restriction of
SubtractRect.  External effectful collaborators (Direct2D draw calls,
DirectWrite complexity analysis, device creation) are modelled as
oracle parameters where their results feed back into engine state, and
as returned draw descriptions where the source only issues draw calls.
-/

/-- Win32 RECT: left/top/right/bottom, exclusive right/bottom. -/
structure RECT where
  left : Int
  top : Int
  right : Int
  bottom : Int
deriving DecidableEq, Repr

/-- Win32 SIZE. -/
structure SIZE where
  cx : Int
  cy : Int
deriving DecidableEq, Repr

/-- Win32 POINT. -/
structure POINT where
  x : Int
  y : Int
deriving DecidableEq, Repr

/-- Console COORD (SHORT fields, modelled as Int). -/
structure COORD where
  X : Int
  Y : Int
deriving DecidableEq, Repr

/-- Console SMALL_RECT (SHORT fields, modelled as Int), inclusive bounds. -/
structure SMALL_RECT where
  Left : Int
  Top : Int
  Right : Int
  Bottom : Int
deriving DecidableEq, Repr

/-- Win32 IsRectEmpty: a rectangle is empty when left ≥ right or top ≥ bottom. -/
def IsRectEmpty (r : RECT) : Bool :=
  r.right ≤ r.left || r.bottom ≤ r.top

/-- The all-zero rectangle that Win32 SetRectEmpty produces. -/
def rectZero : RECT := ⟨0, 0, 0, 0⟩

/-- Win32 UnionRect: bounding box of the two sources; an empty source is
ignored, and two empty sources give the all-zero rectangle. -/
def UnionRect (a b : RECT) : RECT :=
  if IsRectEmpty a then
    if IsRectEmpty b then rectZero else b
  else
    if IsRectEmpty b then a
    else ⟨min a.left b.left, min a.top b.top, max a.right b.right, max a.bottom b.bottom⟩

/-- Win32 IntersectRect: intersection of the two sources; an empty
intersection is normalised to the all-zero rectangle. -/
def IntersectRect (a b : RECT) : RECT :=
  if IsRectEmpty ⟨max a.left b.left, max a.top b.top, min a.right b.right, min a.bottom b.bottom⟩
  then rectZero
  else ⟨max a.left b.left, max a.top b.top, min a.right b.right, min a.bottom b.bottom⟩

/-- Win32 OffsetRect: translate a rectangle. -/
def OffsetRect (r : RECT) (dx dy : Int) : RECT :=
  ⟨r.left + dx, r.top + dy, r.right + dx, r.bottom + dy⟩

/-- Win32 SubtractRect a b: subtracts b from a, but only when the
intersection spans a completely in the x or the y direction; otherwise the
result is a unchanged.  An empty result is the all-zero rectangle. -/
def SubtractRect (a b : RECT) : RECT :=
  if IsRectEmpty a then rectZero
  else
    let tmp := IntersectRect a b
    if IsRectEmpty tmp then a
    else if tmp = a then rectZero
    else if tmp.top = a.top ∧ tmp.bottom = a.bottom then
      if tmp.left = a.left then { a with left := tmp.right }
      else if tmp.right = a.right then { a with right := tmp.left }
      else a
    else if tmp.left = a.left ∧ tmp.right = a.right then
      if tmp.top = a.top then { a with top := tmp.bottom }
      else if tmp.bottom = a.bottom then { a with bottom := tmp.top }
      else a
    else a

/-- _ScaleByFont: multiply every edge of a (character) rectangle by the
font cell size to convert to pixels. -/
def scaleByFont (cellsToPixels : RECT) (fontSize : SIZE) : RECT :=
  ⟨cellsToPixels.left * fontSize.cx,
   cellsToPixels.top * fontSize.cy,
   cellsToPixels.right * fontSize.cx,
   cellsToPixels.bottom * fontSize.cy⟩

/-- SHORT narrowing cast: wrap an Int into [-32768, 32767]. -/
def toShort (x : Int) : Int :=
  (x + 32768) % 65536 - 32768

/-- The HRESULT values the engine produces, plus a generic failure for
device errors reported by collaborators. -/
inductive HResult where
  | S_OK
  | E_HANDLE
  | E_NOT_VALID_STATE
  | E_INVALIDARG
  | E_NOTIMPL
  | E_FAIL
deriving DecidableEq, Repr

/-- SUCCEEDED(hr) for the modelled HRESULT values. -/
def HResult.succeeded : HResult → Bool
  | .S_OK => true
  | _ => false

/-- The DXGI_PRESENT_PARAMETERS fields the engine uses.  The source stores
pointers into the engine (pDirtyRects points at _presentDirty, and so on);
the pointed-at values are modelled directly as options. -/
structure PresentParams where
  DirtyRectsCount : Nat
  pDirtyRects : Option RECT
  pScrollRect : Option RECT
  pScrollOffset : Option POINT
deriving DecidableEq, Repr

/-- The zero-initialised present parameters ({ 0 } in the source). -/
def PresentParams.zeroed : PresentParams := ⟨0, none, none, none⟩

/-- CursorType tags from the console render contract.  A C++ enum class can
carry values outside its declared enumerators, which the source handles in
the default switch case; unknownTag models such a value. -/
inductive CursorType where
  | Legacy
  | VerticalBar
  | Underscore
  | EmptyBox
  | FullBox
  | unknownTag (n : Nat)
deriving DecidableEq, Repr

/-- CursorPaintType from the source: which Direct2D call paints the cursor. -/
inductive CursorPaintType where
  | Fill
  | Outline
deriving DecidableEq, Repr

/-- The cursor draw the engine issues: the rectangle (integer-valued in the
source arithmetic), the paint type, and whether a one-off override brush is
used instead of the standing foreground brush. -/
structure CursorDrawOp where
  rect : RECT
  paintType : CursorPaintType
  usesOverrideBrush : Bool
deriving DecidableEq, Repr

/-- The draw call PaintBufferLine issues for the text of one line: either a
uniform-advance glyph run (fast path) or a full text layout (fallback).
Coordinates are exact rationals standing for the float arithmetic. -/
inductive LineDrawOp where
  | drawGlyphRun (originX originY : ℚ) (fontEmSize : ℚ) (glyphCount : Nat) (glyphAdvances : List ℚ)
  | drawTextLayout (originX originY : ℚ) (layoutMaxWidth layoutMaxHeight : ℚ)
deriving DecidableEq, Repr

/-- The DxEngine state fields relevant to the verified behaviour, named as
in the source. -/
structure DxEngine where
  _isInvalidUsed : Bool
  _invalidRect : RECT
  _invalidScroll : SIZE
  _presentParams : PresentParams
  _presentReady : Bool
  _presentDirty : RECT
  _presentScroll : RECT
  _presentOffset : POINT
  _isEnabled : Bool
  _isPainting : Bool
  _displaySizePixels : SIZE
  _fontSize : ℚ
  _glyphCell : SIZE
  _haveDeviceResources : Bool
  /-- whether _hwndTarget differs from INVALID_HANDLE_VALUE -/
  _hwndTargetValid : Bool
  _baseline : ℚ
deriving DecidableEq, Repr

namespace DxEngine

/-- _GetDisplayRect: origin-placed rectangle of the display surface. -/
def _GetDisplayRect (e : DxEngine) : RECT :=
  ⟨0, 0, e._displaySizePixels.cx, e._displaySizePixels.cy⟩

/-- _InvalidOr(RECT): union the pixel rectangle into the dirty region and
clamp to the display, or initialise the dirty region on first use. -/
def _InvalidOr (e : DxEngine) (rc : RECT) : DxEngine :=
  if e._isInvalidUsed then
    { e with _invalidRect := IntersectRect (UnionRect e._invalidRect rc) (e._GetDisplayRect) }
  else
    { e with _invalidRect := rc, _isInvalidUsed := true }

/-- _InvalidOr(SMALL_RECT): scale the character rectangle by the glyph cell,
extend right/bottom by one cell to the exclusive pixel boundary, then union. -/
def _InvalidOrSR (e : DxEngine) (sr : SMALL_RECT) : DxEngine :=
  let region : RECT := scaleByFont ⟨sr.Left, sr.Top, sr.Right, sr.Bottom⟩ e._glyphCell
  let region := { region with right := region.right + e._glyphCell.cx,
                              bottom := region.bottom + e._glyphCell.cy }
  e._InvalidOr region

/-- Invalidate: public character-rectangle invalidation. -/
def Invalidate (e : DxEngine) (psrRegion : SMALL_RECT) : HResult × DxEngine :=
  (.S_OK, e._InvalidOrSR psrRegion)

/-- InvalidateSystem: public pixel-rectangle invalidation. -/
def InvalidateSystem (e : DxEngine) (prcDirtyClient : RECT) : HResult × DxEngine :=
  (.S_OK, e._InvalidOr prcDirtyClient)

/-- InvalidateAll: invalidate the full display rectangle. -/
def InvalidateAll (e : DxEngine) : HResult × DxEngine :=
  (.S_OK, e._InvalidOr e._GetDisplayRect)

/-- _InvalidOffset: translate the existing dirty rectangle by a pixel delta
and crop it to the display bounds; no-op when nothing is marked dirty. -/
def _InvalidOffset (e : DxEngine) (delta : POINT) : DxEngine :=
  if e._isInvalidUsed then
    let invalidNew := OffsetRect e._invalidRect delta.x delta.y
    { e with _invalidRect := IntersectRect invalidNew (e._GetDisplayRect) }
  else e

/-- InvalidateScroll: translate the dirty rectangle, accumulate the pixel
scroll delta, and invalidate the revealed strips, x delta first, y delta
second. -/
def InvalidateScroll (e : DxEngine) (pcoordDelta : COORD) : HResult × DxEngine :=
  if pcoordDelta.X ≠ 0 ∨ pcoordDelta.Y ≠ 0 then
    let delta : POINT := ⟨pcoordDelta.X * e._glyphCell.cx, pcoordDelta.Y * e._glyphCell.cy⟩
    let e := e._InvalidOffset delta
    let e := { e with _invalidScroll := ⟨e._invalidScroll.cx + delta.x,
                                        e._invalidScroll.cy + delta.y⟩ }
    let display := e._GetDisplayRect
    let reveal := OffsetRect display delta.x 0
    let reveal := IntersectRect reveal display
    let reveal := SubtractRect display reveal
    let e := if ¬ IsRectEmpty reveal then e._InvalidOr reveal else e
    let reveal := OffsetRect display 0 delta.y
    let reveal := IntersectRect reveal display
    let reveal := SubtractRect display reveal
    let e := if ¬ IsRectEmpty reveal then e._InvalidOr reveal else e
    (.S_OK, e)
  else
    (.S_OK, e)

/-- _ReleaseDeviceResources: drop all device/surface resources.  Only the
resource-validity flag is part of the modelled state. -/
def _ReleaseDeviceResources (e : DxEngine) : DxEngine :=
  { e with _haveDeviceResources := false }

/-- _CreateDeviceResources(true): full teardown-then-rebuild of the device
and surface pipeline.  Device creation is external; its outcome is the
createOk oracle.  On success the engine records the fresh client size and
marks resources valid; on failure the scope guard releases everything (a
failure is modelled as occurring before the client-size refresh). -/
def _CreateDeviceResources (e : DxEngine) (clientSize : SIZE) (createOk : Bool) :
    HResult × DxEngine :=
  let e := e._ReleaseDeviceResources
  if createOk then
    (.S_OK, { e with _displaySizePixels := clientSize, _haveDeviceResources := true })
  else
    (.E_FAIL, e._ReleaseDeviceResources)

/-- StartPaint: begin a paint session.  clientSize is the oracle for
_GetClientSize, createOk the oracle for device creation. -/
def StartPaint (e : DxEngine) (clientSize : SIZE) (createOk : Bool) : HResult × DxEngine :=
  if e._hwndTargetValid = false then (.E_HANDLE, e)
  else if e._isPainting then (.E_NOT_VALID_STATE, e)
  else if e._isEnabled then
    let step :=
      if e._haveDeviceResources = false ∨
         e._displaySizePixels.cy ≠ clientSize.cy ∨
         e._displaySizePixels.cx ≠ clientSize.cx then
        e._CreateDeviceResources clientSize createOk
      else (.S_OK, e)
    if step.1.succeeded then
      (.S_OK, { step.2 with _isPainting := true })
    else step
  else (.S_OK, e)

/-- EndPaint: close the session, end the draw batch (endDrawResult is the
oracle for the Direct2D EndDraw call), capture presentation state on
success, release resources on failure, and clear the dirty/scroll
accumulation regardless of outcome. -/
def EndPaint (e : DxEngine) (endDrawResult : HResult) : HResult × DxEngine :=
  if e._isPainting = false then (.E_INVALIDARG, e)
  else
    let step :=
      if e._haveDeviceResources then
        let e := { e with _isPainting := false }
        let hr := endDrawResult
        if hr.succeeded then
          let e :=
            if e._invalidScroll.cy ≠ (0 : Int) ∨ e._invalidScroll.cx ≠ (0 : Int) then
              let presentDirty := e._invalidRect
              let display := e._GetDisplayRect
              let presentScroll := SubtractRect display presentDirty
              let presentOffset : POINT := ⟨e._invalidScroll.cx, e._invalidScroll.cy⟩
              let params : PresentParams :=
                { DirtyRectsCount := 1
                  pDirtyRects := some presentDirty
                  pScrollOffset := some presentOffset
                  pScrollRect := some presentScroll }
              let params :=
                if IsRectEmpty presentScroll then
                  { params with pScrollRect := none, pScrollOffset := none }
                else params
              { e with _presentDirty := presentDirty,
                       _presentScroll := presentScroll,
                       _presentOffset := presentOffset,
                       _presentParams := params }
            else e
          (hr, { e with _presentReady := true })
        else
          (hr, ({ e with _presentReady := false })._ReleaseDeviceResources)
      else (.S_OK, e)
    (step.1, { step.2 with _invalidRect := rectZero, _isInvalidUsed := false, _invalidScroll := ⟨0, 0⟩ })

/-- Present: hand the ready plan to the swap chain (the Present1 call and
the front-to-back copy are external and modelled as succeeding), then clear
the plan.  A no-op when no plan is ready. -/
def Present (e : DxEngine) : HResult × DxEngine :=
  if e._presentReady then
    (.S_OK, { e with _presentReady := false,
                     _presentDirty := rectZero,
                     _presentOffset := ⟨0, 0⟩,
                     _presentScroll := rectZero,
                     _presentParams := PresentParams.zeroed })
  else (.S_OK, e)

/-- GetDirtyRectInChars: floor-divide the pixel dirty rectangle back to
character cells (C integer division truncates; all uses are non-negative),
convert the exclusive right/bottom to inclusive, narrowing each field and
the decrement through SHORT. -/
def GetDirtyRectInChars (e : DxEngine) : SMALL_RECT :=
  let top := toShort (e._invalidRect.top.tdiv e._glyphCell.cy)
  let left := toShort (e._invalidRect.left.tdiv e._glyphCell.cx)
  let bottom := toShort (e._invalidRect.bottom.tdiv e._glyphCell.cy)
  let right := toShort (e._invalidRect.right.tdiv e._glyphCell.cx)
  { Left := left, Top := top, Right := toShort (right - 1), Bottom := toShort (bottom - 1) }

/-- PaintBufferLine: fill the line's background box, then either draw a
uniform-advance glyph run (when the DirectWrite complexity analysis —
modelled by the isTextSimple/textLengthRead oracles — reports the whole run
as simple) or draw through a full text layout built by _CreateTextLayout. -/
def PaintBufferLine (e : DxEngine) (cchLine : Nat) (coord : COORD)
    (isTextSimple : Bool) (textLengthRead : Nat) : LineDrawOp :=
  let originX : ℚ := (coord.X * e._glyphCell.cx : Int)
  let originY : ℚ := (coord.Y * e._glyphCell.cy : Int)
  if isTextSimple ∧ textLengthRead = cchLine then
    let glyphAdvances := List.replicate cchLine ((e._glyphCell.cx : Int) : ℚ)
    let originY := originY + (e._glyphCell.cy : Int)
    let originY := originY - e._baseline * (e._glyphCell.cy : Int)
    .drawGlyphRun originX originY e._fontSize cchLine glyphAdvances
  else
    .drawTextLayout originX originY ((e._displaySizePixels.cx : Int) : ℚ)
      (if e._glyphCell.cy ≠ 0 then ((e._glyphCell.cy : Int) : ℚ)
       else ((e._displaySizePixels.cy : Int) : ℚ))

/-- Modelled from the spec: the minimum legacy cursor height percent
(s_ulMinCursorHeightPercent).  The header declaring the constant is not in
src/; the spec requires height-percent 0 to produce a near-zero-height
rectangle after clamping to the configured range, which pins the minimum
at 0. -/
def s_ulMinCursorHeightPercent : Nat := 0

/-- Modelled from the spec: the maximum legacy cursor height percent
(s_ulMaxCursorHeightPercent).  The header declaring the constant is not in
src/; the spec requires height-percent 100 to produce a full-cell
rectangle after clamping to the configured range, which pins the maximum
at 100. -/
def s_ulMaxCursorHeightPercent : Nat := 100

/-- std::clamp on ULONG. -/
def clampUL (v lo hi : Nat) : Nat :=
  if v < lo then lo else if hi < v then hi else v

/-- PaintCursor: build the cell rectangle (one cell wider when
double-width), adjust it by cursor style, and report the draw; an
unrecognised style tag yields E_NOTIMPL. -/
def PaintCursor (e : DxEngine) (coordCursor : COORD) (ulCursorHeightPercent : Nat)
    (fIsDoubleWidth : Bool) (cursorType : CursorType) (fUseColor : Bool) :
    Except HResult CursorDrawOp :=
  let rect : RECT := ⟨coordCursor.X * e._glyphCell.cx,
                      coordCursor.Y * e._glyphCell.cy,
                      coordCursor.X * e._glyphCell.cx + e._glyphCell.cx,
                      coordCursor.Y * e._glyphCell.cy + e._glyphCell.cy⟩
  let rect := if fIsDoubleWidth then { rect with right := rect.right + e._glyphCell.cx } else rect
  match cursorType with
  | .Legacy =>
      let ulHeight := clampUL ulCursorHeightPercent s_ulMinCursorHeightPercent s_ulMaxCursorHeightPercent
      let ulHeight := (e._glyphCell.cy.toNat * ulHeight) / 100
      .ok ⟨{ rect with top := rect.bottom - ulHeight }, .Fill, fUseColor⟩
  | .VerticalBar =>
      .ok ⟨{ rect with right := rect.left + 1 }, .Fill, fUseColor⟩
  | .Underscore =>
      .ok ⟨{ rect with top := rect.bottom - 1 }, .Fill, fUseColor⟩
  | .EmptyBox =>
      .ok ⟨rect, .Outline, fUseColor⟩
  | .FullBox =>
      .ok ⟨rect, .Fill, fUseColor⟩
  | .unknownTag _ => .error .E_NOTIMPL

end DxEngine

/-! ## Invalidate-call sequences (dirty-region accounting) -/

/-- One public invalidate call within a paint session: a character rectangle
(Invalidate) or a pixel rectangle (InvalidateSystem). -/
inductive InvCall where
  | cells (sr : SMALL_RECT)
  | pixels (rc : RECT)
deriving DecidableEq, Repr

/-- The pixel rectangle a call supplies, converted from character space by
the glyph cell size when needed (cell edges scaled, right/bottom extended
by one cell to the exclusive pixel boundary, exactly as _InvalidOr does). -/
def InvCall.toPixelRect (g : SIZE) : InvCall → RECT
  | .cells sr =>
      let region : RECT := scaleByFont ⟨sr.Left, sr.Top, sr.Right, sr.Bottom⟩ g
      { region with right := region.right + g.cx, bottom := region.bottom + g.cy }
  | .pixels rc => rc

/-- Run a sequence of invalidate calls against the engine. -/
def applyCalls (e : DxEngine) (l : List InvCall) : DxEngine :=
  l.foldl (fun s c => match c with
    | .cells sr => (s.Invalidate sr).2
    | .pixels rc => (s.InvalidateSystem rc).2) e

/-- Whether rectangle r lies inside rectangle d. -/
def rectWithin (r d : RECT) : Prop :=
  d.left ≤ r.left ∧ d.top ≤ r.top ∧ r.right ≤ d.right ∧ r.bottom ≤ d.bottom

instance (r d : RECT) : Decidable (rectWithin r d) := by
  unfold rectWithin; infer_instance

/-- Bounding-box union of two rectangles (no empty-rectangle special case);
the operation underlying the claimed bounding union of supplied
rectangles. -/
def bboxUnion (a b : RECT) : RECT :=
  ⟨min a.left b.left, min a.top b.top, max a.right b.right, max a.bottom b.bottom⟩

/-- Accumulator for the bounding union of a list of rectangles. -/
def bboxAcc : Option RECT → RECT → Option RECT
  | none, r => some r
  | some a, r => some (bboxUnion a r)

/-- The bounding union of all rectangles in a list (the all-zero rectangle
for an empty list). -/
def boundingUnion (l : List RECT) : RECT :=
  (l.foldl bboxAcc none).getD rectZero

/-! ## Rectangle algebra helper lemmas -/

theorem isRectEmpty_false_iff (r : RECT) :
    IsRectEmpty r = false ↔ r.left < r.right ∧ r.top < r.bottom := by
  simp only [IsRectEmpty, Bool.or_eq_false_iff, decide_eq_false_iff_not]
  omega

theorem UnionRect_of_nonempty {a b : RECT}
    (ha : IsRectEmpty a = false) (hb : IsRectEmpty b = false) :
    UnionRect a b = bboxUnion a b := by
  unfold UnionRect bboxUnion
  rw [ha, hb]
  rfl

theorem bboxUnion_within {a b D : RECT} (ha : rectWithin a D) (hb : rectWithin b D) :
    rectWithin (bboxUnion a b) D := by
  unfold rectWithin at *
  unfold bboxUnion
  dsimp only
  omega

theorem bboxUnion_nonempty_left {a : RECT} (b : RECT) (ha : IsRectEmpty a = false) :
    IsRectEmpty (bboxUnion a b) = false := by
  rw [isRectEmpty_false_iff] at *
  unfold bboxUnion
  dsimp only
  omega

theorem IntersectRect_within_self {r D : RECT}
    (hne : IsRectEmpty r = false) (hw : rectWithin r D) :
    IntersectRect r D = r := by
  obtain ⟨l, t, ri, b⟩ := r
  rw [isRectEmpty_false_iff] at hne
  obtain ⟨h1, h2, h3, h4⟩ := hw
  unfold IntersectRect
  dsimp only at *
  have e1 : max l D.left = l := by omega
  have e2 : max t D.top = t := by omega
  have e3 : min ri D.right = ri := by omega
  have e4 : min b D.bottom = b := by omega
  rw [e1, e2, e3, e4]
  have hf : IsRectEmpty ⟨l, t, ri, b⟩ = false := by
    rw [isRectEmpty_false_iff]
    dsimp only
    omega
  rw [hf]
  rfl

theorem rightComm_bboxAcc : ∀ (x : Option RECT) (a b : RECT),
    bboxAcc (bboxAcc x a) b = bboxAcc (bboxAcc x b) a := by
  intro x a b
  cases x <;> simp only [bboxAcc, bboxUnion, Option.some.injEq, RECT.mk.injEq] <;> omega

theorem foldl_perm_of_rightComm {α β : Type} {f : β → α → β}
    (hf : ∀ x a b, f (f x a) b = f (f x b) a) {l1 l2 : List α} (h : l1.Perm l2) :
    ∀ x, l1.foldl f x = l2.foldl f x := by
  induction h with
  | nil => intro x; rfl
  | cons a _ ih => intro x; simp only [List.foldl_cons]; exact ih _
  | swap a b l => intro x; simp only [List.foldl_cons, hf]
  | trans _ _ ih1 ih2 => intro x; rw [ih1 x, ih2 x]

theorem boundingUnion_perm {l1 l2 : List RECT} (h : l1.Perm l2) :
    boundingUnion l1 = boundingUnion l2 := by
  unfold boundingUnion
  rw [foldl_perm_of_rightComm rightComm_bboxAcc h none]

theorem foldl_bboxAcc_some (a : RECT) (l : List RECT) :
    l.foldl bboxAcc (some a) = some (l.foldl bboxUnion a) := by
  induction l generalizing a with
  | nil => rfl
  | cons r tl ih => simp only [List.foldl_cons, bboxAcc, ih]

theorem foldl_bboxUnion_nonempty_within {D : RECT} :
    ∀ (l : List RECT) (a : RECT),
      IsRectEmpty a = false → rectWithin a D →
      (∀ r ∈ l, IsRectEmpty r = false ∧ rectWithin r D) →
      IsRectEmpty (l.foldl bboxUnion a) = false ∧ rectWithin (l.foldl bboxUnion a) D := by
  intro l
  induction l with
  | nil => intro a ha hw _; exact ⟨ha, hw⟩
  | cons r tl ih =>
      intro a ha hw hl
      have hr := hl r (List.mem_cons_self r tl)
      simp only [List.foldl_cons]
      exact ih (bboxUnion a r) (bboxUnion_nonempty_left r ha)
        (bboxUnion_within hw hr.2)
        (fun x hx => hl x (List.mem_cons_of_mem r hx))

/-! ## Dirty-region accumulation lemmas -/

theorem _InvalidOr_used (e : DxEngine) (rc : RECT) :
    (e._InvalidOr rc)._isInvalidUsed = true := by
  unfold DxEngine._InvalidOr
  split
  next h => exact h
  next h => rfl

theorem _InvalidOr_display (e : DxEngine) (rc : RECT) :
    (e._InvalidOr rc)._GetDisplayRect = e._GetDisplayRect := by
  unfold DxEngine._InvalidOr
  split <;> rfl

theorem _InvalidOr_glyphCell (e : DxEngine) (rc : RECT) :
    (e._InvalidOr rc)._glyphCell = e._glyphCell := by
  unfold DxEngine._InvalidOr
  split <;> rfl

theorem foldl_InvalidOr_inbounds {D : RECT} :
    ∀ (l : List RECT) (s : DxEngine),
      s._GetDisplayRect = D →
      s._isInvalidUsed = true →
      IsRectEmpty s._invalidRect = false →
      rectWithin s._invalidRect D →
      (∀ r ∈ l, IsRectEmpty r = false ∧ rectWithin r D) →
      (l.foldl DxEngine._InvalidOr s)._invalidRect = l.foldl bboxUnion s._invalidRect := by
  intro l
  induction l with
  | nil => intro s _ _ _ _ _; rfl
  | cons r tl ih =>
      intro s hD hu hne hw hl
      obtain ⟨hrne, hrw⟩ := hl r (List.mem_cons_self r tl)
      have hstep : s._InvalidOr r = { s with _invalidRect := bboxUnion s._invalidRect r } := by
        unfold DxEngine._InvalidOr
        rw [hu]
        simp only [if_true]
        rw [UnionRect_of_nonempty hne hrne, hD,
          IntersectRect_within_self (bboxUnion_nonempty_left r hne) (bboxUnion_within hw hrw)]
      simp only [List.foldl_cons, hstep]
      exact ih _ hD hu (bboxUnion_nonempty_left r hne) (bboxUnion_within hw hrw)
        (fun x hx => hl x (List.mem_cons_of_mem r hx))

theorem applyCalls_eq_foldl :
    ∀ (l : List InvCall) (e : DxEngine),
      applyCalls e l = (l.map (InvCall.toPixelRect e._glyphCell)).foldl DxEngine._InvalidOr e := by
  intro l
  induction l with
  | nil => intro e; rfl
  | cons c tl ih =>
      intro e
      have h1 : applyCalls e (c :: tl) = applyCalls (e._InvalidOr (c.toPixelRect e._glyphCell)) tl := by
        cases c <;> rfl
      rw [h1, ih, _InvalidOr_glyphCell]
      simp only [List.map_cons, List.foldl_cons]

/-- C1 (amended): starting from an empty dirty region, for a sequence of
invalidateCells/invalidatePixels calls all of whose rectangles (converted
to pixel space) are non-empty and lie within the display bounds, the
resulting dirty rectangle equals the bounding union of all supplied
rectangles intersected with the display bounds, independently of the order
in which the calls are made. -/
theorem dirty_union_inbounds_eq_clamped_bbox
    (e : DxEngine) (l lp : List InvCall)
    (hused : e._isInvalidUsed = false)
    (hne : l ≠ [])
    (hperm : l.Perm lp)
    (hin : ∀ c ∈ l, IsRectEmpty (c.toPixelRect e._glyphCell) = false ∧
                    rectWithin (c.toPixelRect e._glyphCell) e._GetDisplayRect) :
    (applyCalls e lp)._invalidRect =
      IntersectRect (boundingUnion (l.map (InvCall.toPixelRect e._glyphCell)))
        e._GetDisplayRect := by
  have hinp : ∀ c ∈ lp, IsRectEmpty (c.toPixelRect e._glyphCell) = false ∧
      rectWithin (c.toPixelRect e._glyphCell) e._GetDisplayRect :=
    fun c hc => hin c (hperm.mem_iff.2 hc)
  have hnep : lp ≠ [] := by
    intro h
    subst h
    exact hne hperm.eq_nil
  have hbu : boundingUnion (l.map (InvCall.toPixelRect e._glyphCell)) =
      boundingUnion (lp.map (InvCall.toPixelRect e._glyphCell)) :=
    boundingUnion_perm (hperm.map _)
  rw [hbu, applyCalls_eq_foldl]
  obtain ⟨c, tl, rfl⟩ := List.exists_cons_of_ne_nil hnep
  obtain ⟨hcne, hcw⟩ := hinp c (List.mem_cons_self c tl)
  have htl : ∀ r ∈ tl.map (InvCall.toPixelRect e._glyphCell),
      IsRectEmpty r = false ∧ rectWithin r e._GetDisplayRect := by
    intro r hr
    obtain ⟨x, hx, rfl⟩ := List.mem_map.1 hr
    exact hinp x (List.mem_cons_of_mem c hx)
  have hfirst : e._InvalidOr (c.toPixelRect e._glyphCell) =
      { e with _invalidRect := c.toPixelRect e._glyphCell, _isInvalidUsed := true } := by
    unfold DxEngine._InvalidOr
    rw [hused]
    simp only [Bool.false_eq_true, if_false]
  simp only [List.map_cons, List.foldl_cons]
  rw [hfirst]
  rw [foldl_InvalidOr_inbounds (tl.map (InvCall.toPixelRect e._glyphCell))
        { e with _invalidRect := InvCall.toPixelRect e._glyphCell c, _isInvalidUsed := true }
        rfl rfl hcne hcw htl]
  have hval : boundingUnion (c.toPixelRect e._glyphCell :: tl.map (InvCall.toPixelRect e._glyphCell)) =
      (tl.map (InvCall.toPixelRect e._glyphCell)).foldl bboxUnion (c.toPixelRect e._glyphCell) := by
    unfold boundingUnion
    rw [List.foldl_cons]
    show ((tl.map (InvCall.toPixelRect e._glyphCell)).foldl bboxAcc
      (some (c.toPixelRect e._glyphCell))).getD rectZero = _
    rw [foldl_bboxAcc_some]
    rfl
  rw [hval]
  obtain ⟨hfne, hfw⟩ := foldl_bboxUnion_nonempty_within
    (tl.map (InvCall.toPixelRect e._glyphCell)) (c.toPixelRect e._glyphCell) hcne hcw htl
  rw [IntersectRect_within_self hfne hfw]

/-- A concrete engine for the dirty-region theorems: 10x10 pixel display,
2x2 glyph cell, enabled, mid-session, nothing marked dirty yet. -/
def engineC1 : DxEngine :=
  { _isInvalidUsed := false
    _invalidRect := rectZero
    _invalidScroll := ⟨0, 0⟩
    _presentParams := PresentParams.zeroed
    _presentReady := false
    _presentDirty := rectZero
    _presentScroll := rectZero
    _presentOffset := ⟨0, 0⟩
    _isEnabled := true
    _isPainting := true
    _displaySizePixels := ⟨10, 10⟩
    _fontSize := 2
    _glyphCell := ⟨2, 2⟩
    _haveDeviceResources := true
    _hwndTargetValid := true
    _baseline := 1/4 }

/-- C1: counterexample to the claim as stated.  First: a single
invalidatePixels call whose rectangle lies outside the display is stored
unclamped, so the dirty rectangle is not the clamped bounding union and is
not intersected with the display bounds once marked.  Second: two
permutations of the same three pixel invalidations produce different dirty
rectangles, so the result is not order-independent. -/
theorem dirty_union_clamp_order_counterexample :
    ((applyCalls engineC1 [.pixels ⟨100, 100, 200, 200⟩])._invalidRect ≠
      IntersectRect (boundingUnion ([InvCall.pixels ⟨100, 100, 200, 200⟩].map
        (InvCall.toPixelRect engineC1._glyphCell))) engineC1._GetDisplayRect) ∧
    ((applyCalls engineC1
        [.pixels ⟨3, -5, 4, -4⟩, .pixels ⟨3, -3, 4, -2⟩, .pixels ⟨0, 0, 1, 1⟩])._invalidRect ≠
     (applyCalls engineC1
        [.pixels ⟨3, -5, 4, -4⟩, .pixels ⟨0, 0, 1, 1⟩, .pixels ⟨3, -3, 4, -2⟩])._invalidRect) := by
  decide

/-- C1: witness for the amended theorem at concrete inputs. -/
theorem dirty_union_inbounds_witness :
    (applyCalls engineC1 [.pixels ⟨4, 4, 6, 6⟩, .cells ⟨0, 0, 0, 0⟩])._invalidRect =
      IntersectRect (boundingUnion ([InvCall.cells ⟨0, 0, 0, 0⟩, InvCall.pixels ⟨4, 4, 6, 6⟩].map
        (InvCall.toPixelRect engineC1._glyphCell))) engineC1._GetDisplayRect :=
  dirty_union_inbounds_eq_clamped_bbox engineC1
    [.cells ⟨0, 0, 0, 0⟩, .pixels ⟨4, 4, 6, 6⟩]
    [.pixels ⟨4, 4, 6, 6⟩, .cells ⟨0, 0, 0, 0⟩]
    rfl (by decide) (by decide) (by decide)

/-! ## Paint-session state machine claims -/

/-- An idle concrete engine (no open session). -/
def engineIdle : DxEngine := { engineC1 with _isPainting := false }

/-- A concrete engine with no target surface configured. -/
def engineNoHwnd : DxEngine := { engineIdle with _hwndTargetValid := false }

/-- C5: startPaint on an engine with a configured target surface but an
already-open session fails with E_NOT_VALID_STATE and leaves the state
unchanged; endPaint with no open session fails with E_INVALIDARG and
leaves the state unchanged; startPaint with no target surface configured
fails with E_HANDLE. -/
theorem paint_session_error_codes :
    (∀ (e : DxEngine) (cs : SIZE) (ok : Bool),
        e._hwndTargetValid = true → e._isPainting = true →
        e.StartPaint cs ok = (.E_NOT_VALID_STATE, e)) ∧
    (∀ (e : DxEngine) (hr : HResult),
        e._isPainting = false → e.EndPaint hr = (.E_INVALIDARG, e)) ∧
    (∀ (e : DxEngine) (cs : SIZE) (ok : Bool),
        e._hwndTargetValid = false → e.StartPaint cs ok = (.E_HANDLE, e)) := by
  refine ⟨?_, ?_, ?_⟩
  · intro e cs ok hh hp
    unfold DxEngine.StartPaint
    simp [hh, hp]
  · intro e hr hp
    unfold DxEngine.EndPaint
    simp [hp]
  · intro e cs ok hh
    unfold DxEngine.StartPaint
    simp [hh]

/-- C5: witness at concrete engines. -/
theorem paint_session_error_codes_witness :
    engineC1.StartPaint ⟨10, 10⟩ true = (.E_NOT_VALID_STATE, engineC1) ∧
    engineIdle.EndPaint .S_OK = (.E_INVALIDARG, engineIdle) ∧
    engineNoHwnd.StartPaint ⟨10, 10⟩ true = (.E_HANDLE, engineNoHwnd) :=
  ⟨paint_session_error_codes.1 engineC1 ⟨10, 10⟩ true rfl rfl,
   paint_session_error_codes.2.1 engineIdle .S_OK rfl,
   paint_session_error_codes.2.2 engineNoHwnd ⟨10, 10⟩ true rfl⟩

/-- C6: endPaint on an open session always clears the dirty rectangle, the
is-marked flag and the scroll accumulator before returning, whatever the
draw-batch result; and when the batch end ran (device resources held) and
failed, no presentation plan is marked ready and the surface resources are
released. -/
theorem endPaint_clears_invalid_state
    (e : DxEngine) (hr : HResult) (hPaint : e._isPainting = true) :
    ((e.EndPaint hr).2._invalidRect = rectZero ∧
     (e.EndPaint hr).2._isInvalidUsed = false ∧
     (e.EndPaint hr).2._invalidScroll = ⟨0, 0⟩) ∧
    (e._haveDeviceResources = true → hr.succeeded = false →
      (e.EndPaint hr).2._presentReady = false ∧
      (e.EndPaint hr).2._haveDeviceResources = false) := by
  unfold DxEngine.EndPaint
  constructor
  · simp [hPaint]
  · intro hDev hFail
    simp [hPaint, hDev, hFail, DxEngine._ReleaseDeviceResources]

/-- C6: witness on a failing draw-batch end. -/
theorem endPaint_clears_invalid_state_witness :
    (((engineC1.EndPaint .E_FAIL).2._invalidRect = rectZero ∧
      (engineC1.EndPaint .E_FAIL).2._isInvalidUsed = false ∧
      (engineC1.EndPaint .E_FAIL).2._invalidScroll = ⟨0, 0⟩) ∧
     (engineC1._haveDeviceResources = true → HResult.succeeded .E_FAIL = false →
       (engineC1.EndPaint .E_FAIL).2._presentReady = false ∧
       (engineC1.EndPaint .E_FAIL).2._haveDeviceResources = false)) :=
  endPaint_clears_invalid_state engineC1 .E_FAIL rfl

/-- A concrete idle engine that is disabled but still has a target surface. -/
def engineDisabledIdle : DxEngine :=
  { engineIdle with _isEnabled := false, _haveDeviceResources := false }

/-- C10: on an engine that is not enabled but has a target surface
configured, startPaint returns S_OK with the state entirely unchanged (no
session opened, no resources created, no dirty/scroll change), and a
subsequent endPaint fails with E_INVALIDARG. -/
theorem startPaint_disabled_noop
    (e : DxEngine) (cs : SIZE) (ok : Bool) (hr : HResult)
    (hh : e._hwndTargetValid = true) (hp : e._isPainting = false) (he : e._isEnabled = false) :
    e.StartPaint cs ok = (.S_OK, e) ∧
    ((e.StartPaint cs ok).2.EndPaint hr).1 = .E_INVALIDARG := by
  have h1 : e.StartPaint cs ok = (.S_OK, e) := by
    unfold DxEngine.StartPaint
    simp [hh, hp, he]
  refine ⟨h1, ?_⟩
  rw [h1]
  unfold DxEngine.EndPaint
  simp [hp]

/-- C10: witness on a concrete disabled engine. -/
theorem startPaint_disabled_noop_witness :
    engineDisabledIdle.StartPaint ⟨20, 20⟩ true = (.S_OK, engineDisabledIdle) ∧
    ((engineDisabledIdle.StartPaint ⟨20, 20⟩ true).2.EndPaint .S_OK).1 = .E_INVALIDARG :=
  startPaint_disabled_noop engineDisabledIdle ⟨20, 20⟩ true .S_OK rfl rfl rfl

/-! ## Presentation-plan claims -/

/-- C2: for a successful endPaint with device resources held and a non-zero
accumulated scroll delta, the plan's scroll rectangle is the display
rectangle minus (SubtractRect) the accumulated dirty rectangle and the
scroll offset is the accumulated delta when that difference is non-empty;
when the difference is empty both scroll fields are omitted. -/
theorem endPaint_scroll_plan_subtract
    (e : DxEngine) (hr : HResult)
    (hPaint : e._isPainting = true)
    (hDev : e._haveDeviceResources = true)
    (hSucc : hr.succeeded = true)
    (hScroll : e._invalidScroll.cx ≠ 0 ∨ e._invalidScroll.cy ≠ 0) :
    (IsRectEmpty (SubtractRect e._GetDisplayRect e._invalidRect) = false →
      (e.EndPaint hr).2._presentParams.pScrollRect =
          some (SubtractRect e._GetDisplayRect e._invalidRect) ∧
      (e.EndPaint hr).2._presentParams.pScrollOffset =
          some ⟨e._invalidScroll.cx, e._invalidScroll.cy⟩) ∧
    (IsRectEmpty (SubtractRect e._GetDisplayRect e._invalidRect) = true →
      (e.EndPaint hr).2._presentParams.pScrollRect = none ∧
      (e.EndPaint hr).2._presentParams.pScrollOffset = none) := by
  have hs : e._invalidScroll.cy ≠ (0 : Int) ∨ e._invalidScroll.cx ≠ (0 : Int) := hScroll.symm
  unfold DxEngine.EndPaint
  constructor
  · intro hne
    simp only [DxEngine._GetDisplayRect] at hne
    simp [hPaint, hDev, hSucc, hs, hne, DxEngine._GetDisplayRect]
  · intro hemp
    simp only [DxEngine._GetDisplayRect] at hemp
    simp [hPaint, hDev, hSucc, hs, hemp, DxEngine._GetDisplayRect]

/-- A concrete engine mid-session with a marked dirty rectangle and an
accumulated scroll delta. -/
def engineScrolled : DxEngine :=
  { engineC1 with _isInvalidUsed := true,
                  _invalidRect := ⟨0, 0, 10, 4⟩,
                  _invalidScroll := ⟨0, 4⟩ }

/-- C2: witness at a concrete engine whose preserved region is non-empty. -/
theorem endPaint_scroll_plan_subtract_witness :
    (IsRectEmpty (SubtractRect engineScrolled._GetDisplayRect engineScrolled._invalidRect) = false →
      (engineScrolled.EndPaint .S_OK).2._presentParams.pScrollRect =
          some (SubtractRect engineScrolled._GetDisplayRect engineScrolled._invalidRect) ∧
      (engineScrolled.EndPaint .S_OK).2._presentParams.pScrollOffset =
          some ⟨engineScrolled._invalidScroll.cx, engineScrolled._invalidScroll.cy⟩) ∧
    (IsRectEmpty (SubtractRect engineScrolled._GetDisplayRect engineScrolled._invalidRect) = true →
      (engineScrolled.EndPaint .S_OK).2._presentParams.pScrollRect = none ∧
      (engineScrolled.EndPaint .S_OK).2._presentParams.pScrollOffset = none) :=
  endPaint_scroll_plan_subtract engineScrolled .S_OK rfl rfl rfl (by decide)

/-- A concrete engine mid-session with a marked dirty rectangle and a zero
scroll accumulator. -/
def engineZeroScroll : DxEngine :=
  { engineC1 with _isInvalidUsed := true, _invalidRect := ⟨2, 2, 6, 6⟩ }

/-- C3: counterexample to the claim as stated.  On a successful endPaint
with zero accumulated scroll, the presentation parameters are not written
at all: the plan does not carry the accumulated dirty rectangle in its
dirty-rect field (the field stays empty and the dirty-rect count stays 0,
meaning a full-surface present). -/
theorem endPaint_zero_scroll_no_dirty_field :
    (engineZeroScroll.EndPaint .S_OK).2._presentParams.pDirtyRects ≠
      some engineZeroScroll._invalidRect ∧
    (engineZeroScroll.EndPaint .S_OK).2._presentParams.DirtyRectsCount = 0 := by
  decide

/-- C3 (amended): for a successful endPaint with device resources held and
zero accumulated scroll delta, the presentation parameters are left
completely untouched; in particular, starting from the zero-initialised
parameters the plan carries no dirty rectangle and no scroll rectangle or
offset (a full-surface present), and the plan is marked ready. -/
theorem endPaint_zero_scroll_params_unchanged
    (e : DxEngine) (hr : HResult)
    (hPaint : e._isPainting = true)
    (hDev : e._haveDeviceResources = true)
    (hSucc : hr.succeeded = true)
    (hScroll : e._invalidScroll = ⟨0, 0⟩) :
    (e.EndPaint hr).2._presentParams = e._presentParams ∧
    (e.EndPaint hr).2._presentReady = true ∧
    (e._presentParams = PresentParams.zeroed →
      (e.EndPaint hr).2._presentParams.pDirtyRects = none ∧
      (e.EndPaint hr).2._presentParams.pScrollRect = none ∧
      (e.EndPaint hr).2._presentParams.pScrollOffset = none) := by
  unfold DxEngine.EndPaint
  have h1 : e._invalidScroll.cy = (0 : Int) := by rw [hScroll]
  have h2 : e._invalidScroll.cx = (0 : Int) := by rw [hScroll]
  refine ⟨?_, ?_, ?_⟩
  · simp [hPaint, hDev, hSucc, h1, h2]
  · simp [hPaint, hDev, hSucc, h1, h2]
  · intro hz
    simp [hPaint, hDev, hSucc, h1, h2, hz, PresentParams.zeroed]

/-- C3: witness for the amended theorem at a concrete engine. -/
theorem endPaint_zero_scroll_params_unchanged_witness :
    (engineZeroScroll.EndPaint .S_OK).2._presentParams = engineZeroScroll._presentParams ∧
    (engineZeroScroll.EndPaint .S_OK).2._presentReady = true ∧
    (engineZeroScroll._presentParams = PresentParams.zeroed →
      (engineZeroScroll.EndPaint .S_OK).2._presentParams.pDirtyRects = none ∧
      (engineZeroScroll.EndPaint .S_OK).2._presentParams.pScrollRect = none ∧
      (engineZeroScroll.EndPaint .S_OK).2._presentParams.pScrollOffset = none) :=
  endPaint_zero_scroll_params_unchanged engineZeroScroll .S_OK rfl rfl rfl rfl

/-! ## Scroll invalidation (C4) -/

theorem isRectEmpty_true_iff (r : RECT) :
    IsRectEmpty r = true ↔ r.right ≤ r.left ∨ r.bottom ≤ r.top := by
  simp only [IsRectEmpty, Bool.or_eq_true, decide_eq_true_eq]

theorem IntersectRect_empty_eq_zero {a b : RECT}
    (h : IsRectEmpty (IntersectRect a b) = true) : IntersectRect a b = rectZero := by
  unfold IntersectRect at h ⊢
  split at h
  next hc => rw [if_pos hc]
  next hc => exact absurd h hc

theorem IntersectRect_rectZero_left (b : RECT) : IntersectRect rectZero b = rectZero := by
  unfold IntersectRect
  rw [if_pos]
  rw [isRectEmpty_true_iff]
  unfold rectZero
  dsimp only
  omega

theorem IntersectRect_result_within (x D : RECT)
    (hne : IsRectEmpty (IntersectRect x D) = false) :
    rectWithin (IntersectRect x D) D := by
  unfold IntersectRect at hne ⊢
  split
  next hc =>
    rw [if_pos hc] at hne
    exact absurd hne (by decide)
  next hc =>
    rw [if_neg hc] at hne
    unfold rectWithin
    dsimp only
    omega

theorem IntersectRect_clamp_idem (x D : RECT) :
    IntersectRect (IntersectRect x D) D = IntersectRect x D := by
  by_cases h : IsRectEmpty (IntersectRect x D) = true
  · rw [IntersectRect_empty_eq_zero h, IntersectRect_rectZero_left]
  · have hne : IsRectEmpty (IntersectRect x D) = false := by
      cases hh : IsRectEmpty (IntersectRect x D)
      · rfl
      · exact absurd hh h
    exact IntersectRect_within_self hne (IntersectRect_result_within x D hne)

theorem UnionRect_empty_right (a : RECT) {b : RECT} (hb : IsRectEmpty b = true) :
    UnionRect a b = if IsRectEmpty a then rectZero else a := by
  unfold UnionRect
  rw [hb]
  split <;> simp

theorem clamp_union_empty (X D : RECT) {rv : RECT} (hrv : IsRectEmpty rv = true) :
    IntersectRect (UnionRect (IntersectRect X D) rv) D = IntersectRect X D := by
  rw [UnionRect_empty_right _ hrv]
  by_cases hse : IsRectEmpty (IntersectRect X D) = true
  · rw [if_pos hse, IntersectRect_empty_eq_zero hse, IntersectRect_rectZero_left]
  · rw [if_neg hse, IntersectRect_clamp_idem]

/-- The dirty rectangle the spec describes for invalidateScroll: translate
the pre-existing dirty rectangle by the pixel delta and clamp it to the
display, then union in the horizontal reveal rectangle
D − ((D shifted by the x pixel delta) ∩ D), then, as a separate second
step, the vertical reveal rectangle computed the same way from the y pixel
delta, each union clamped to the display. -/
def scrollSpecDirty (R D : RECT) (px : POINT) : RECT :=
  let translated := IntersectRect (OffsetRect R px.x px.y) D
  let hReveal := SubtractRect D (IntersectRect (OffsetRect D px.x 0) D)
  let afterH := IntersectRect (UnionRect translated hReveal) D
  let vReveal := SubtractRect D (IntersectRect (OffsetRect D 0 px.y) D)
  IntersectRect (UnionRect afterH vReveal) D

/-- C4: for a non-zero cell delta and a pre-existing dirty rectangle,
invalidateScroll replaces the dirty rectangle by the translate-then-clamp
of the old one, adds the pixel delta to the scroll accumulator, and unions
in the horizontal reveal rectangle D − ((D shifted by the x pixel delta)
∩ D) and then, as a separate second step, the vertical reveal rectangle
computed the same way from the y pixel delta. -/
theorem invalidateScroll_translate_clamp_reveals
    (e : DxEngine) (delta : COORD)
    (hdelta : delta.X ≠ 0 ∨ delta.Y ≠ 0)
    (hused : e._isInvalidUsed = true) :
    (e.InvalidateScroll delta).2._invalidRect =
      scrollSpecDirty e._invalidRect e._GetDisplayRect
        ⟨delta.X * e._glyphCell.cx, delta.Y * e._glyphCell.cy⟩ ∧
    (e.InvalidateScroll delta).2._invalidScroll =
      ⟨e._invalidScroll.cx + delta.X * e._glyphCell.cx,
       e._invalidScroll.cy + delta.Y * e._glyphCell.cy⟩ := by
  unfold DxEngine.InvalidateScroll
  rw [if_pos hdelta]
  unfold DxEngine._InvalidOffset DxEngine._InvalidOr scrollSpecDirty DxEngine._GetDisplayRect
  simp only [hused, if_true]
  constructor
  · split
    next h1 =>
      split
      next h2 => simp
      next h2 =>
        dsimp only
        try simp only [eq_self_iff_true, if_true]
        rw [clamp_union_empty
          (OffsetRect e._invalidRect (delta.X * e._glyphCell.cx) (delta.Y * e._glyphCell.cy))
          ⟨0, 0, e._displaySizePixels.cx, e._displaySizePixels.cy⟩ (not_not.mp h2)]
    next h1 =>
      split
      next h2 =>
        dsimp only
        try simp only [eq_self_iff_true, if_true]
        rw [clamp_union_empty
          (UnionRect
            (IntersectRect
              (OffsetRect e._invalidRect (delta.X * e._glyphCell.cx) (delta.Y * e._glyphCell.cy))
              ⟨0, 0, e._displaySizePixels.cx, e._displaySizePixels.cy⟩)
            (SubtractRect ⟨0, 0, e._displaySizePixels.cx, e._displaySizePixels.cy⟩
              (IntersectRect
                (OffsetRect ⟨0, 0, e._displaySizePixels.cx, e._displaySizePixels.cy⟩
                  (delta.X * e._glyphCell.cx) 0)
                ⟨0, 0, e._displaySizePixels.cx, e._displaySizePixels.cy⟩)))
          ⟨0, 0, e._displaySizePixels.cx, e._displaySizePixels.cy⟩ (not_not.mp h1)]
      next h2 =>
        dsimp only
        rw [clamp_union_empty
          (OffsetRect e._invalidRect (delta.X * e._glyphCell.cx) (delta.Y * e._glyphCell.cy))
          ⟨0, 0, e._displaySizePixels.cx, e._displaySizePixels.cy⟩ (not_not.mp h2)]
        rw [clamp_union_empty
          (OffsetRect e._invalidRect (delta.X * e._glyphCell.cx) (delta.Y * e._glyphCell.cy))
          ⟨0, 0, e._displaySizePixels.cx, e._displaySizePixels.cy⟩ (not_not.mp h1)]
  · split <;> split <;> simp

/-- C4: witness at a concrete engine, scrolling one cell right and one
cell down. -/
theorem invalidateScroll_translate_clamp_reveals_witness :
    (engineScrolled.InvalidateScroll ⟨1, 1⟩).2._invalidRect =
      scrollSpecDirty engineScrolled._invalidRect engineScrolled._GetDisplayRect
        ⟨1 * engineScrolled._glyphCell.cx, 1 * engineScrolled._glyphCell.cy⟩ ∧
    (engineScrolled.InvalidateScroll ⟨1, 1⟩).2._invalidScroll =
      ⟨engineScrolled._invalidScroll.cx + 1 * engineScrolled._glyphCell.cx,
       engineScrolled._invalidScroll.cy + 1 * engineScrolled._glyphCell.cy⟩ :=
  invalidateScroll_translate_clamp_reveals engineScrolled ⟨1, 1⟩ (by decide) rfl

/-! ## Glyph-run shaping decision (C7) -/

/-- C7: the uniform-advance fast path is taken exactly when the complexity
query reports the run simple and consumed the full run length; on the fast
path every glyph advance equals the cell width and the run origin's
vertical coordinate equals the cell top plus the cell height minus
(baseline ratio × cell height); in every other case the line is drawn
through the full text-layout fallback sized by _CreateTextLayout. -/
theorem paintBufferLine_fast_path_iff
    (e : DxEngine) (cchLine : Nat) (coord : COORD)
    (isTextSimple : Bool) (textLengthRead : Nat) :
    ((∃ ox oy fs n adv, e.PaintBufferLine cchLine coord isTextSimple textLengthRead =
        .drawGlyphRun ox oy fs n adv) ↔ (isTextSimple = true ∧ textLengthRead = cchLine)) ∧
    (isTextSimple = true → textLengthRead = cchLine →
      e.PaintBufferLine cchLine coord isTextSimple textLengthRead =
        .drawGlyphRun ((coord.X * e._glyphCell.cx : Int) : ℚ)
          (((coord.Y * e._glyphCell.cy : Int) : ℚ) + ((e._glyphCell.cy : Int) : ℚ)
            - e._baseline * ((e._glyphCell.cy : Int) : ℚ))
          e._fontSize cchLine (List.replicate cchLine ((e._glyphCell.cx : Int) : ℚ)) ∧
      ∀ a ∈ List.replicate cchLine ((e._glyphCell.cx : Int) : ℚ),
        a = ((e._glyphCell.cx : Int) : ℚ)) ∧
    (¬(isTextSimple = true ∧ textLengthRead = cchLine) →
      e.PaintBufferLine cchLine coord isTextSimple textLengthRead =
        .drawTextLayout ((coord.X * e._glyphCell.cx : Int) : ℚ)
          ((coord.Y * e._glyphCell.cy : Int) : ℚ)
          ((e._displaySizePixels.cx : Int) : ℚ)
          (if e._glyphCell.cy ≠ 0 then ((e._glyphCell.cy : Int) : ℚ)
           else ((e._displaySizePixels.cy : Int) : ℚ))) := by
  unfold DxEngine.PaintBufferLine
  by_cases h : isTextSimple = true ∧ textLengthRead = cchLine
  · rw [if_pos h]
    refine ⟨⟨fun _ => h, fun _ => ⟨_, _, _, _, _, rfl⟩⟩, ?_, ?_⟩
    · intro _ _
      exact ⟨rfl, fun a ha => List.eq_of_mem_replicate ha⟩
    · intro hn
      exact absurd h hn
  · rw [if_neg h]
    refine ⟨⟨?_, fun hh => absurd hh h⟩, ?_, ?_⟩
    · rintro ⟨ox, oy, fs, n, adv, heq⟩
      exact absurd heq (by simp)
    · intro h1 h2
      exact absurd ⟨h1, h2⟩ h
    · intro _
      rfl

/-- C7: witness — a 3-cell simple run takes the fast path at the claimed
origin and advances, and the same run with a partially-consumed complexity
query falls back to the layout path. -/
theorem paintBufferLine_fast_path_witness :
    (engineC1.PaintBufferLine 3 ⟨2, 1⟩ true 3 =
      .drawGlyphRun ((((2 : Int) * engineC1._glyphCell.cx : Int)) : ℚ)
        ((((1 : Int) * engineC1._glyphCell.cy : Int) : ℚ) + ((engineC1._glyphCell.cy : Int) : ℚ)
          - engineC1._baseline * ((engineC1._glyphCell.cy : Int) : ℚ))
        engineC1._fontSize 3 (List.replicate 3 ((engineC1._glyphCell.cx : Int) : ℚ)) ∧
      ∀ a ∈ List.replicate 3 ((engineC1._glyphCell.cx : Int) : ℚ),
        a = ((engineC1._glyphCell.cx : Int) : ℚ)) ∧
    engineC1.PaintBufferLine 3 ⟨2, 1⟩ true 2 =
      .drawTextLayout ((((2 : Int) * engineC1._glyphCell.cx : Int)) : ℚ)
        (((1 : Int) * engineC1._glyphCell.cy : Int) : ℚ)
        ((engineC1._displaySizePixels.cx : Int) : ℚ)
        (if engineC1._glyphCell.cy ≠ 0 then ((engineC1._glyphCell.cy : Int) : ℚ)
         else ((engineC1._displaySizePixels.cy : Int) : ℚ)) :=
  ⟨(paintBufferLine_fast_path_iff engineC1 3 ⟨2, 1⟩ true 3).2.1 rfl rfl,
   (paintBufferLine_fast_path_iff engineC1 3 ⟨2, 1⟩ true 2).2.2 (by simp)⟩

/-! ## Cursor geometry (C8) -/

/-- The cursor's full cell rectangle at a character coordinate: the cell's
pixel rectangle, one extra cell width wider when double-width. -/
def cursorBaseRect (e : DxEngine) (c : COORD) (dw : Bool) : RECT :=
  ⟨c.X * e._glyphCell.cx,
   c.Y * e._glyphCell.cy,
   c.X * e._glyphCell.cx + e._glyphCell.cx + (if dw then e._glyphCell.cx else 0),
   c.Y * e._glyphCell.cy + e._glyphCell.cy⟩

/-- C8: the cursor rectangle starts as the cell's pixel rectangle (one cell
wider when double-width) and is adjusted by style: Legacy clamps the
height-percent to [s_ulMinCursorHeightPercent, s_ulMaxCursorHeightPercent]
and raises the top so only that fraction of the cell, measured from the
bottom, is covered, for every height-percent — percent 0 gives a
zero-height rectangle at the cell's bottom, percent 100 the full cell, and
any percent above the maximum is clamped to it; VerticalBar sets
right = left + 1; Underscore sets top = bottom − 1; EmptyBox outlines and
FullBox fills the full cell rectangle; an unrecognised style tag fails
with E_NOTIMPL. -/
theorem paintCursor_geometry
    (e : DxEngine) (c : COORD) (pct : Nat) (dw : Bool) (useColor : Bool) (n : Nat)
    (hcy : 0 ≤ e._glyphCell.cy) :
    (e.PaintCursor c pct dw .Legacy useColor =
      .ok ⟨{ cursorBaseRect e c dw with
               top := (cursorBaseRect e c dw).bottom -
                 ((e._glyphCell.cy.toNat *
                    DxEngine.clampUL pct DxEngine.s_ulMinCursorHeightPercent
                      DxEngine.s_ulMaxCursorHeightPercent) / 100 : Nat) },
            .Fill, useColor⟩) ∧
    (e.PaintCursor c 0 dw .Legacy useColor =
      .ok ⟨⟨(cursorBaseRect e c dw).left, (cursorBaseRect e c dw).bottom,
            (cursorBaseRect e c dw).right, (cursorBaseRect e c dw).bottom⟩, .Fill, useColor⟩) ∧
    (e.PaintCursor c 100 dw .Legacy useColor =
      .ok ⟨cursorBaseRect e c dw, .Fill, useColor⟩) ∧
    (100 ≤ pct → e.PaintCursor c pct dw .Legacy useColor = e.PaintCursor c 100 dw .Legacy useColor) ∧
    (e.PaintCursor c pct dw .VerticalBar useColor =
      .ok ⟨{ cursorBaseRect e c dw with right := (cursorBaseRect e c dw).left + 1 },
           .Fill, useColor⟩) ∧
    (e.PaintCursor c pct dw .Underscore useColor =
      .ok ⟨{ cursorBaseRect e c dw with top := (cursorBaseRect e c dw).bottom - 1 },
           .Fill, useColor⟩) ∧
    (e.PaintCursor c pct dw .EmptyBox useColor =
      .ok ⟨cursorBaseRect e c dw, .Outline, useColor⟩) ∧
    (e.PaintCursor c pct dw .FullBox useColor =
      .ok ⟨cursorBaseRect e c dw, .Fill, useColor⟩) ∧
    (e.PaintCursor c pct dw (.unknownTag n) useColor = .error .E_NOTIMPL) := by
  have h100 : DxEngine.clampUL 100 DxEngine.s_ulMinCursorHeightPercent
      DxEngine.s_ulMaxCursorHeightPercent = 100 := by
    unfold DxEngine.clampUL DxEngine.s_ulMinCursorHeightPercent DxEngine.s_ulMaxCursorHeightPercent
    norm_num
  have h0 : DxEngine.clampUL 0 DxEngine.s_ulMinCursorHeightPercent
      DxEngine.s_ulMaxCursorHeightPercent = 0 := by
    unfold DxEngine.clampUL DxEngine.s_ulMinCursorHeightPercent DxEngine.s_ulMaxCursorHeightPercent
    norm_num
  have hdiv : e._glyphCell.cy.toNat * 100 / 100 = e._glyphCell.cy.toNat :=
    Nat.mul_div_cancel _ (by norm_num)
  have hcyn : ((e._glyphCell.cy.toNat : Int)) = e._glyphCell.cy := Int.toNat_of_nonneg hcy
  refine ⟨?_, ?_, ?_, ?_, ?_, ?_, ?_, ?_, ?_⟩
  · unfold DxEngine.PaintCursor cursorBaseRect
    cases dw <;> simp
  · unfold DxEngine.PaintCursor cursorBaseRect
    cases dw <;> simp [h0]
  · unfold DxEngine.PaintCursor cursorBaseRect
    cases dw <;> simp [h100, hdiv, hcyn, add_sub_cancel_right]
  · intro hpct
    have hclamp : DxEngine.clampUL pct DxEngine.s_ulMinCursorHeightPercent
        DxEngine.s_ulMaxCursorHeightPercent = 100 := by
      unfold DxEngine.clampUL DxEngine.s_ulMinCursorHeightPercent DxEngine.s_ulMaxCursorHeightPercent
      split
      · omega
      · split
        · rfl
        · omega
    unfold DxEngine.PaintCursor
    simp only [hclamp, h100]
  · unfold DxEngine.PaintCursor cursorBaseRect
    cases dw <;> simp
  · unfold DxEngine.PaintCursor cursorBaseRect
    cases dw <;> simp
  · unfold DxEngine.PaintCursor cursorBaseRect
    cases dw <;> simp
  · unfold DxEngine.PaintCursor cursorBaseRect
    cases dw <;> simp
  · rfl

/-- C8: witness at a concrete engine, double-width cursor: the Legacy
fraction formula at the in-range percent 50, and the full geometry at
percent 130 (clamped down to 100). -/
theorem paintCursor_geometry_witness :
    (engineC1.PaintCursor ⟨1, 1⟩ 50 true .Legacy false =
      .ok ⟨{ cursorBaseRect engineC1 ⟨1, 1⟩ true with
               top := (cursorBaseRect engineC1 ⟨1, 1⟩ true).bottom -
                 ((engineC1._glyphCell.cy.toNat *
                    DxEngine.clampUL 50 DxEngine.s_ulMinCursorHeightPercent
                      DxEngine.s_ulMaxCursorHeightPercent) / 100 : Nat) },
            .Fill, false⟩) ∧
    (engineC1.PaintCursor ⟨1, 1⟩ 130 true .Legacy false =
      .ok ⟨{ cursorBaseRect engineC1 ⟨1, 1⟩ true with
               top := (cursorBaseRect engineC1 ⟨1, 1⟩ true).bottom -
                 ((engineC1._glyphCell.cy.toNat *
                    DxEngine.clampUL 130 DxEngine.s_ulMinCursorHeightPercent
                      DxEngine.s_ulMaxCursorHeightPercent) / 100 : Nat) },
            .Fill, false⟩) ∧
    (engineC1.PaintCursor ⟨1, 1⟩ 0 true .Legacy false =
      .ok ⟨⟨(cursorBaseRect engineC1 ⟨1, 1⟩ true).left, (cursorBaseRect engineC1 ⟨1, 1⟩ true).bottom,
            (cursorBaseRect engineC1 ⟨1, 1⟩ true).right, (cursorBaseRect engineC1 ⟨1, 1⟩ true).bottom⟩,
           .Fill, false⟩) ∧
    (engineC1.PaintCursor ⟨1, 1⟩ 100 true .Legacy false =
      .ok ⟨cursorBaseRect engineC1 ⟨1, 1⟩ true, .Fill, false⟩) ∧
    (100 ≤ 130 → engineC1.PaintCursor ⟨1, 1⟩ 130 true .Legacy false =
      engineC1.PaintCursor ⟨1, 1⟩ 100 true .Legacy false) ∧
    (engineC1.PaintCursor ⟨1, 1⟩ 130 true .VerticalBar false =
      .ok ⟨{ cursorBaseRect engineC1 ⟨1, 1⟩ true with
               right := (cursorBaseRect engineC1 ⟨1, 1⟩ true).left + 1 }, .Fill, false⟩) ∧
    (engineC1.PaintCursor ⟨1, 1⟩ 130 true .Underscore false =
      .ok ⟨{ cursorBaseRect engineC1 ⟨1, 1⟩ true with
               top := (cursorBaseRect engineC1 ⟨1, 1⟩ true).bottom - 1 }, .Fill, false⟩) ∧
    (engineC1.PaintCursor ⟨1, 1⟩ 130 true .EmptyBox false =
      .ok ⟨cursorBaseRect engineC1 ⟨1, 1⟩ true, .Outline, false⟩) ∧
    (engineC1.PaintCursor ⟨1, 1⟩ 130 true .FullBox false =
      .ok ⟨cursorBaseRect engineC1 ⟨1, 1⟩ true, .Fill, false⟩) ∧
    (engineC1.PaintCursor ⟨1, 1⟩ 130 true (.unknownTag 7) false = .error .E_NOTIMPL) :=
  ⟨(paintCursor_geometry engineC1 ⟨1, 1⟩ 50 true false 7 (by decide)).1,
   paintCursor_geometry engineC1 ⟨1, 1⟩ 130 true false 7 (by decide)⟩

/-! ## Character/pixel dirty round trip (C9) -/

/-- C9: with a positive glyph cell size and an empty dirty region, calling
the character-rectangle invalidate with r and then GetDirtyRectInChars
returns exactly r: the one-cell right/bottom expansion to the exclusive
pixel boundary is undone by the truncating division and the
exclusive-to-inclusive decrement, through the SHORT narrowing. -/
theorem char_pixel_dirty_round_trip
    (e : DxEngine) (r : SMALL_RECT)
    (hcx : 0 < e._glyphCell.cx) (hcy : 0 < e._glyphCell.cy)
    (hused : e._isInvalidUsed = false)
    (hrange : -32768 ≤ r.Left ∧ r.Left ≤ 32767 ∧ -32768 ≤ r.Top ∧ r.Top ≤ 32767 ∧
              -32768 ≤ r.Right ∧ r.Right ≤ 32767 ∧ -32768 ≤ r.Bottom ∧ r.Bottom ≤ 32767)
    (hbounds : rectWithin (InvCall.toPixelRect e._glyphCell (.cells r)) e._GetDisplayRect) :
    ((e.Invalidate r).2).GetDirtyRectInChars = r := by
  have hstep : (e.Invalidate r).2 =
      { e with _invalidRect := InvCall.toPixelRect e._glyphCell (.cells r),
               _isInvalidUsed := true } := by
    unfold DxEngine.Invalidate DxEngine._InvalidOrSR DxEngine._InvalidOr InvCall.toPixelRect scaleByFont
    simp [hused]
  rw [hstep]
  unfold DxEngine.GetDirtyRectInChars InvCall.toPixelRect scaleByFont
  dsimp only
  have hTop : (r.Top * e._glyphCell.cy).tdiv e._glyphCell.cy = r.Top :=
    Int.mul_tdiv_cancel _ (by omega)
  have hLeft : (r.Left * e._glyphCell.cx).tdiv e._glyphCell.cx = r.Left :=
    Int.mul_tdiv_cancel _ (by omega)
  have hBottom : (r.Bottom * e._glyphCell.cy + e._glyphCell.cy).tdiv e._glyphCell.cy = r.Bottom + 1 := by
    have hm : r.Bottom * e._glyphCell.cy + e._glyphCell.cy = (r.Bottom + 1) * e._glyphCell.cy := by ring
    rw [hm, Int.mul_tdiv_cancel _ (by omega)]
  have hRight : (r.Right * e._glyphCell.cx + e._glyphCell.cx).tdiv e._glyphCell.cx = r.Right + 1 := by
    have hm : r.Right * e._glyphCell.cx + e._glyphCell.cx = (r.Right + 1) * e._glyphCell.cx := by ring
    rw [hm, Int.mul_tdiv_cancel _ (by omega)]
  rw [hTop, hLeft, hBottom, hRight]
  obtain ⟨h1, h2, h3, h4, h5, h6, h7, h8⟩ := hrange
  obtain ⟨rL, rT, rR, rB⟩ := r
  simp only [SMALL_RECT.mk.injEq]
  unfold toShort
  dsimp only at *
  refine ⟨?_, ?_, ?_, ?_⟩ <;> omega

/-- C9: witness — invalidating the character rectangle (1,1)-(3,2) on a
2x2-cell engine and reading the dirty rectangle back in characters returns
the same rectangle. -/
theorem char_pixel_dirty_round_trip_witness :
    ((engineC1.Invalidate ⟨1, 1, 3, 2⟩).2).GetDirtyRectInChars = ⟨1, 1, 3, 2⟩ :=
  char_pixel_dirty_round_trip engineC1 ⟨1, 1, 3, 2⟩ (by decide) (by decide) rfl
    (by decide) (by decide)
